import Mathlib

/-! Verification development for the RAG vs Knowledge Graph comparison
engine (knowledge_graph_rag_comparison.py), as a shallow embedding.

Python strings are modelled as lists of characters (PyStr).  External
collaborators (the graph query service and the completion service) are
modelled as oracles whose calls return either a value or a raised
exception (Except).  Time stamps and console printing are omitted; all
other record fields are carried.  Query-result values are modelled as
scalars or lists of scalars, the shapes produced by the graph query
service; non-string scalars carry their textual rendering. -/

set_option maxRecDepth 100000

abbrev PyStr := List Char

def pystr (s : String) : PyStr := s.data

/-- A scalar value in a query-result record: a string, or some other
scalar (number, date, boolean) carried with its textual rendering. -/
inductive PyScalar where
  | str (s : PyStr)
  | other (rendered : PyStr)
deriving DecidableEq

/-- A value in a query-result record: a scalar or a list of scalars. -/
inductive PyVal where
  | scalar (v : PyScalar)
  | list (elems : List PyScalar)
deriving DecidableEq

/-- A query-result record: mapping from field name to value,
modelled as an association list in field order. -/
abbrev PyRecord := List (PyStr × PyVal)

/-! ## Subgraph Extractor (method _extract_graph_from_results)

Step 1 of the extractor collects every nonempty string scalar and every
nonempty string element of list values into a deduplicated candidate
set.  The Python set is modelled as a list of distinct names in first
occurrence order. -/

def addEntityName (acc : List PyStr) (s : PyStr) : List PyStr :=
  if s ∈ acc then acc else acc ++ [s]

def collectFromVal (acc : List PyStr) : PyVal → List PyStr
  | .scalar (.str s) => if s ≠ [] then addEntityName acc s else acc
  | .scalar (.other _) => acc
  | .list elems =>
    elems.foldl
      (fun a e =>
        match e with
        | .str s => if s ≠ [] then addEntityName a s else a
        | .other _ => a) acc

def collectEntityNames (results : List PyRecord) : List PyStr :=
  results.foldl (fun acc record => record.foldl (fun a kv => collectFromVal a kv.2) acc) []

/-- A node row produced by the fixed lookup queries: id, head label and
properties.  The id is optional, mirroring node.get applied to a row
lacking the key. -/
structure NodeEntry where
  id : Option Int
  label : PyStr
  properties : PyRecord
deriving DecidableEq

/-- A relationship row produced by the fixed lookup queries. -/
structure RelEntry where
  source : Option Int
  target : Option Int
  type : PyStr
deriving DecidableEq

/-- One record returned by a lookup query: the nodes and relationships
columns.  List entries are optional, mirroring null rows. -/
structure GraphPayload where
  nodes : List (Option NodeEntry)
  relationships : List (Option RelEntry)
deriving DecidableEq

/-- The visualization payload: the values of the node dictionary and
the accumulated relationship list. -/
structure GraphSnapshot where
  nodes : List NodeEntry
  relationships : List RelEntry
deriving DecidableEq

/-- The internal node dictionary keyed by node id, in insertion order
(Python dict semantics: update in place, append new keys). -/
abbrev NodeDict := List (Int × NodeEntry)

def dictHas (d : NodeDict) (k : Int) : Bool :=
  d.any (fun p => p.1 = k)

def dictInsert (k : Int) (v : NodeEntry) (d : NodeDict) : NodeDict :=
  if dictHas d k then d.map (fun p => if p.1 = k then (k, v) else p) else d ++ [(k, v)]

def dictValues (d : NodeDict) : List NodeEntry := d.map (fun p => p.2)

/-- Processing of a nodes column: rows that are present and carry an id
are written into the dictionary under that id. -/
def processNodes (d : NodeDict) (ns : List (Option NodeEntry)) : NodeDict :=
  ns.foldl
    (fun d entry =>
      match entry with
      | some n =>
        match n.id with
        | some i => dictInsert i n d
        | none => d
      | none => d) d

/-- Processing of a relationships column: rows that are present, carry
both endpoints, and whose endpoints are keys of the dictionary are
appended; all others are dropped. -/
def processRels (d : NodeDict) (acc : List RelEntry) (rs : List (Option RelEntry)) : List RelEntry :=
  rs.foldl
    (fun acc entry =>
      match entry with
      | some r =>
        match r.source, r.target with
        | some s, some t => if dictHas d s ∧ dictHas d t then acc ++ [r] else acc
        | _, _ => acc
      | none => acc) acc

/-- The two lookup queries issued by the extractor (researcher
neighborhood, then article neighborhood), as oracles that either
return rows or raise. -/
structure ExtractOracle where
  lookupA : List PyStr → Except PyStr (List (Option GraphPayload))
  lookupB : List PyStr → Except PyStr (List (Option GraphPayload))

/-- Result of one extractor run: the returned snapshot, whether an
exception was caught by the outer try, and the argument lists of the
lookup queries that were issued. -/
structure ExtractResult where
  snapshot : GraphSnapshot
  caught : Bool
  calls : List (List PyStr)
deriving DecidableEq

/-- One lookup phase: if the query returned a first, present record,
write its nodes into the dictionary, then append its relationships
checked against the updated dictionary; otherwise leave the state
unchanged. -/
def processPayload (grs : List (Option GraphPayload)) (d : NodeDict)
    (acc : List RelEntry) : NodeDict × List RelEntry :=
  match grs with
  | some payload :: _ =>
    let d2 := processNodes d payload.nodes
    (d2, processRels d2 acc payload.relationships)
  | _ => (d, acc)

/-- Shallow embedding of _extract_graph_from_results.  The outer
try/except is modelled by the oracle calls returning Except: an error
outcome takes the except path, which returns whatever has been
accumulated so far. -/
def extract_graph_from_results (o : ExtractOracle) (results : List PyRecord)
    (cypher : PyStr) : ExtractResult :=
  let _ := cypher
  let entityNames := collectEntityNames results
  if entityNames ≠ [] ∧ entityNames.length < 50 then
    let capped := entityNames.take 20
    match o.lookupA capped with
    | .error _ => ⟨⟨[], []⟩, true, [capped]⟩
    | .ok graphResults =>
      let pA := processPayload graphResults [] []
      if pA.1.isEmpty then
        match o.lookupB capped with
        | .error _ => ⟨⟨dictValues pA.1, pA.2⟩, true, [capped, capped]⟩
        | .ok articleResults =>
          let pB := processPayload articleResults pA.1 pA.2
          ⟨⟨dictValues pB.1, pB.2⟩, false, [capped, capped]⟩
      else ⟨⟨dictValues pA.1, pA.2⟩, false, [capped]⟩
  else ⟨⟨[], []⟩, false, []⟩

/-! ### Lemmas about the node dictionary and row processing -/

/-- Every entry of the dictionary is stored under its own id. -/
def DictCoherent (d : NodeDict) : Prop := ∀ p ∈ d, p.2.id = some p.1

lemma dictCoherent_nil : DictCoherent [] := by
  intro p hp
  cases hp

lemma dictInsert_coherent {d : NodeDict} {k : Int} {n : NodeEntry}
    (hd : DictCoherent d) (hn : n.id = some k) : DictCoherent (dictInsert k n d) := by
  intro p hp
  unfold dictInsert at hp
  split at hp
  · rcases List.mem_map.mp hp with ⟨q, hq, hpq⟩
    by_cases h : q.1 = k
    · simp only [h, if_pos] at hpq
      subst hpq
      exact hn
    · simp only [h, if_neg, not_false_iff] at hpq
      subst hpq
      exact hd q hq
  · rcases List.mem_append.mp hp with h | h
    · exact hd p h
    · simp only [List.mem_singleton] at h
      subst h
      exact hn

lemma processNodes_coherent {d : NodeDict} (hd : DictCoherent d)
    (ns : List (Option NodeEntry)) : DictCoherent (processNodes d ns) := by
  induction ns generalizing d with
  | nil => exact hd
  | cons entry rest ih =>
    unfold processNodes
    simp only [List.foldl_cons]
    apply ih
    cases entry with
    | none => exact hd
    | some n =>
      cases hid : n.id with
      | none => simpa [hid] using hd
      | some i =>
        simp only [hid]
        exact dictInsert_coherent hd hid

lemma dictHas_nil (k : Int) : dictHas [] k = false := rfl

lemma processRels_nil_dict (acc : List RelEntry) (rs : List (Option RelEntry)) :
    processRels [] acc rs = acc := by
  induction rs generalizing acc with
  | nil => rfl
  | cons entry rest ih =>
    unfold processRels
    simp only [List.foldl_cons]
    have h : (match entry with
      | some r =>
        match r.source, r.target with
        | some s, some t => if dictHas [] s ∧ dictHas [] t then acc ++ [r] else acc
        | _, _ => acc
      | none => acc) = acc := by
      cases entry with
      | none => rfl
      | some r =>
        cases hs : r.source <;> cases ht : r.target <;> simp [hs, ht, dictHas]
    rw [h]
    exact ih acc

lemma processRels_spec {d : NodeDict} (acc : List RelEntry) (rs : List (Option RelEntry)) :
    ∀ r ∈ processRels d acc rs,
      r ∈ acc ∨ ∃ s t, r.source = some s ∧ r.target = some t ∧
        dictHas d s = true ∧ dictHas d t = true := by
  induction rs generalizing acc with
  | nil => intro r hr; exact Or.inl hr
  | cons entry rest ih =>
    intro r hr
    unfold processRels at hr
    simp only [List.foldl_cons] at hr
    have hr' := ih _ r hr
    rcases hr' with hmem | hok
    · cases entry with
      | none => exact Or.inl hmem
      | some q =>
        rcases hs : q.source with _ | s
        · simp only [hs] at hmem
          exact Or.inl hmem
        · rcases ht : q.target with _ | t
          · simp only [hs, ht] at hmem
            exact Or.inl hmem
          · simp only [hs, ht] at hmem
            split at hmem
            · rcases List.mem_append.mp hmem with h | h
              · exact Or.inl h
              · simp only [List.mem_singleton] at h
                subst h
                rename_i hboth
                exact Or.inr ⟨s, t, hs, ht, hboth.1, hboth.2⟩
            · exact Or.inl hmem
    · exact Or.inr hok

lemma dictHas_values {d : NodeDict} (hd : DictCoherent d) {k : Int}
    (hk : dictHas d k = true) : ∃ n ∈ dictValues d, n.id = some k := by
  unfold dictHas at hk
  rcases List.any_eq_true.mp hk with ⟨p, hp, hpk⟩
  simp only [decide_eq_true_eq] at hpk
  refine ⟨p.2, List.mem_map.mpr ⟨p, hp, rfl⟩, ?_⟩
  rw [hd p hp, hpk]

/-- Helper: the snapshot-level invariant. -/
def SnapshotOk (g : GraphSnapshot) : Prop :=
  ∀ rel ∈ g.relationships, ∃ s t, rel.source = some s ∧ rel.target = some t ∧
    (∃ n ∈ g.nodes, n.id = some s) ∧ (∃ n ∈ g.nodes, n.id = some t)

lemma processPayload_coherent (grs : List (Option GraphPayload)) (d : NodeDict)
    (acc : List RelEntry) (hd : DictCoherent d) :
    DictCoherent (processPayload grs d acc).1 := by
  rcases grs with _ | ⟨_ | payload, rest⟩
  · exact hd
  · exact hd
  · exact processNodes_coherent hd payload.nodes

lemma processPayload_spec (grs : List (Option GraphPayload)) (d : NodeDict)
    (acc : List RelEntry) :
    ∀ r ∈ (processPayload grs d acc).2, r ∈ acc ∨ ∃ s t,
      r.source = some s ∧ r.target = some t ∧
      dictHas (processPayload grs d acc).1 s = true ∧
      dictHas (processPayload grs d acc).1 t = true := by
  rcases grs with _ | ⟨_ | payload, rest⟩
  · intro r hr; exact Or.inl hr
  · intro r hr; exact Or.inl hr
  · intro r hr
    exact processRels_spec acc payload.relationships r hr

lemma processPayload_snd_nil (grs : List (Option GraphPayload)) (d : NodeDict)
    (h1 : (processPayload grs d []).1 = []) : (processPayload grs d []).2 = [] := by
  rw [List.eq_nil_iff_forall_not_mem]
  intro r hr
  rcases processPayload_spec grs d [] r hr with h | ⟨s, t, _, _, hds, _⟩
  · cases h
  · rw [h1] at hds
    simp [dictHas] at hds

lemma snapshotOk_processPayload (grs : List (Option GraphPayload)) (d : NodeDict)
    (hd : DictCoherent d) :
    SnapshotOk ⟨dictValues (processPayload grs d []).1, (processPayload grs d []).2⟩ := by
  intro rel hrel
  rcases processPayload_spec grs d [] rel hrel with h | ⟨s, t, hs, ht, hds, hdt⟩
  · cases h
  · have hc := processPayload_coherent grs d [] hd
    exact ⟨s, t, hs, ht, dictHas_values hc hds, dictHas_values hc hdt⟩

/-- C2: for every query result and oracle behaviour, each relationship
in the returned snapshot has both endpoints among the node ids of the
snapshot; dangling relationships are dropped.  The extractor is a total
function of its inputs and oracle outcomes, so it never raises. -/
theorem c2_snapshot_invariant (o : ExtractOracle) (results : List PyRecord)
    (cypher : PyStr) :
    SnapshotOk (extract_graph_from_results o results cypher).snapshot := by
  unfold extract_graph_from_results
  dsimp only
  split
  · cases hA : o.lookupA ((collectEntityNames results).take 20) with
    | error e =>
      simp only [hA]
      intro rel hrel
      exact absurd hrel (List.not_mem_nil rel)
    | ok grs =>
      simp only [hA]
      by_cases hEmpty : (processPayload grs [] []).1.isEmpty
      · rw [if_pos hEmpty]
        have hd1 : (processPayload grs [] []).1 = [] := by
          simpa using hEmpty
        have hd2 : (processPayload grs [] []).2 = [] := processPayload_snd_nil grs [] hd1
        cases hB : o.lookupB ((collectEntityNames results).take 20) with
        | error e =>
          simp only [hB]
          intro rel hrel
          rw [hd2] at hrel
          exact absurd hrel (List.not_mem_nil rel)
        | ok ars =>
          simp only [hB]
          rw [hd1, hd2]
          exact snapshotOk_processPayload ars [] dictCoherent_nil
      · rw [if_neg hEmpty]
        exact snapshotOk_processPayload grs [] dictCoherent_nil
  · intro rel hrel
    exact absurd hrel (List.not_mem_nil rel)

/-- C2 witness: a run on a synthetic result whose lookup returns one
valid relationship and one dangling relationship; the valid one is in
the snapshot and satisfies the invariant. -/
def c2Oracle : ExtractOracle :=
  ⟨fun _ => .ok [some ⟨[some ⟨some 1, pystr "Researcher", []⟩, some ⟨some 2, pystr "Article", []⟩],
      [some ⟨some 1, some 2, pystr "PUBLISHED"⟩, some ⟨some 1, some 3, pystr "DANGLING"⟩]⟩],
    fun _ => .ok []⟩

def c2Results : List PyRecord := [[(pystr "name", PyVal.scalar (PyScalar.str (pystr "Emily Chen")))]]

theorem c2_snapshot_invariant_witness :
    (⟨some 1, some 2, pystr "PUBLISHED"⟩ : RelEntry) ∈
      (extract_graph_from_results c2Oracle c2Results []).snapshot.relationships ∧
    (∃ s t, (⟨some 1, some 2, pystr "PUBLISHED"⟩ : RelEntry).source = some s ∧
      (⟨some 1, some 2, pystr "PUBLISHED"⟩ : RelEntry).target = some t ∧
      (∃ n ∈ (extract_graph_from_results c2Oracle c2Results []).snapshot.nodes, n.id = some s) ∧
      (∃ n ∈ (extract_graph_from_results c2Oracle c2Results []).snapshot.nodes, n.id = some t)) :=
  ⟨by decide, c2_snapshot_invariant c2Oracle c2Results [] _ (by decide)⟩

/-! ## Decimal rendering of naturals (used by the f-string embeddings) -/

def digitChar (d : Nat) : Char :=
  match d with
  | 0 => '0'
  | 1 => '1'
  | 2 => '2'
  | 3 => '3'
  | 4 => '4'
  | 5 => '5'
  | 6 => '6'
  | 7 => '7'
  | 8 => '8'
  | _ => '9'

def natToStrGo : Nat → Nat → PyStr → PyStr
  | 0, _, acc => acc
  | fuel + 1, n, acc =>
    if n < 10 then digitChar (n % 10) :: acc
    else natToStrGo fuel (n / 10) (digitChar (n % 10) :: acc)

/-- Decimal rendering of a natural number, as produced by an f-string. -/
def natToStr (n : Nat) : PyStr := natToStrGo (n + 1) n []

/-! ## C3: candidate-set gate of the Subgraph Extractor -/

/-- C3 counterexample input: a synthetic query result carrying exactly
50 distinct entity names. -/
def c3Results : List PyRecord :=
  [[(pystr "names", PyVal.list ((List.range 50).map (fun i => PyScalar.str (pystr "e" ++ natToStr i))))]]

def c3Oracle : ExtractOracle := ⟨fun _ => .ok [], fun _ => .ok []⟩

/-- C3 counterexample: with exactly 50 candidate names the candidate
set is nonempty and does not exceed 50, yet the extractor issues no
lookup query and returns the empty snapshot — the code's guard is
strictly less than 50, so the claimed otherwise-branch fails at 50. -/
theorem c3_counterexample_fifty_names :
    collectEntityNames c3Results ≠ [] ∧
    (collectEntityNames c3Results).length = 50 ∧
    ¬ 50 < (collectEntityNames c3Results).length ∧
    (extract_graph_from_results c3Oracle c3Results []).calls = [] ∧
    (extract_graph_from_results c3Oracle c3Results []).snapshot = ⟨[], []⟩ := by
  decide

/-- C3 amended: if the candidate set is empty or its size is at least
the ceiling 50, the extractor returns an empty snapshot without issuing
any lookup query; otherwise (1 to 49 candidates) the first lookup query
issued carries the prefix of the first 20 candidate names. -/
theorem c3_candidate_gate (o : ExtractOracle) (results : List PyRecord) (cypher : PyStr) :
    ((collectEntityNames results = [] ∨ 50 ≤ (collectEntityNames results).length) →
      extract_graph_from_results o results cypher = ⟨⟨[], []⟩, false, []⟩) ∧
    (collectEntityNames results ≠ [] → (collectEntityNames results).length < 50 →
      (extract_graph_from_results o results cypher).calls.head? =
        some ((collectEntityNames results).take 20)) := by
  constructor
  · intro h
    unfold extract_graph_from_results
    dsimp only
    rw [if_neg]
    rintro ⟨hne, hlt⟩
    rcases h with h | h
    · exact hne h
    · omega
  · intro h1 h2
    unfold extract_graph_from_results
    dsimp only
    rw [if_pos ⟨h1, h2⟩]
    cases hA : o.lookupA ((collectEntityNames results).take 20) with
    | error e => simp [hA]
    | ok grs =>
      simp only [hA]
      by_cases hEmpty : (processPayload grs [] []).1.isEmpty
      · rw [if_pos hEmpty]
        cases hB : o.lookupB ((collectEntityNames results).take 20) with
        | error e => simp [hB]
        | ok ars => simp [hB]
      · rw [if_neg hEmpty]
        rfl

/-- C3 amended witness: the abort half at the 50-name input, and the
issue half at a one-name input. -/
def c3SmallResults : List PyRecord :=
  [[(pystr "researcher", PyVal.scalar (PyScalar.str (pystr "Emily Chen")))]]

theorem c3_candidate_gate_witness :
    extract_graph_from_results c3Oracle c3Results [] = ⟨⟨[], []⟩, false, []⟩ ∧
    (extract_graph_from_results c3Oracle c3SmallResults []).calls.head? =
      some ((collectEntityNames c3SmallResults).take 20) :=
  ⟨(c3_candidate_gate c3Oracle c3Results []).1 (Or.inr (by decide)),
   (c3_candidate_gate c3Oracle c3SmallResults []).2 (by decide) (by decide)⟩

/-! ## C4: exceptions are swallowed and yield the empty snapshot -/

/-- C4: whenever the extractor catches an exception (one of the lookup
queries raised), the returned snapshot is empty — no nodes and no
relationships; extraction itself always returns and never fails the
query path. -/
theorem c4_caught_exception_empty_snapshot (o : ExtractOracle)
    (results : List PyRecord) (cypher : PyStr)
    (h : (extract_graph_from_results o results cypher).caught = true) :
    (extract_graph_from_results o results cypher).snapshot = ⟨[], []⟩ := by
  unfold extract_graph_from_results at h ⊢
  dsimp only at h ⊢
  by_cases hcond : collectEntityNames results ≠ [] ∧ (collectEntityNames results).length < 50
  · rw [if_pos hcond] at h ⊢
    cases hA : o.lookupA ((collectEntityNames results).take 20) with
    | error e => simp [hA]
    | ok grs =>
      simp only [hA] at h ⊢
      by_cases hEmpty : (processPayload grs [] []).1.isEmpty
      · have hd1 : (processPayload grs [] []).1 = [] := by simpa using hEmpty
        have hd2 : (processPayload grs [] []).2 = [] := processPayload_snd_nil grs [] hd1
        rw [if_pos hEmpty] at h ⊢
        cases hB : o.lookupB ((collectEntityNames results).take 20) with
        | error e => simp [hB, hd1, hd2, dictValues]
        | ok ars =>
          simp only [hB] at h
          simp at h
      · rw [if_neg hEmpty] at h
        simp at h
  · rw [if_neg hcond] at h
    simp at h

/-- C4 witness: a failing first lookup is swallowed and the empty
snapshot is returned. -/
def c4Oracle : ExtractOracle := ⟨fun _ => .error (pystr "connection refused"), fun _ => .ok []⟩

theorem c4_caught_exception_empty_snapshot_witness :
    (extract_graph_from_results c4Oracle c3SmallResults []).caught = true ∧
    (extract_graph_from_results c4Oracle c3SmallResults []).snapshot = ⟨[], []⟩ :=
  ⟨by decide, c4_caught_exception_empty_snapshot c4Oracle c3SmallResults [] (by decide)⟩

/-! ## Python string operations used by the RAG side -/

/-- Python str.split on a single character: every occurrence splits. -/
def splitOnChar (c : Char) : PyStr → List PyStr
  | [] => [[]]
  | x :: xs =>
    match splitOnChar c xs with
    | [] => [[]]
    | h :: t => if x = c then [] :: h :: t else (x :: h) :: t

/-- Everything after the first occurrence of c, as in split(c, 1)[1]
(callers guard on membership first). -/
def afterChar (c : Char) : PyStr → PyStr
  | [] => []
  | x :: xs => if x = c then xs else afterChar c xs

/-- Python membership test c in s. -/
def pyElem (c : Char) : PyStr → Bool
  | [] => false
  | x :: xs => x = c || pyElem c xs

/-- Python s.startswith(p), first argument the candidate p. -/
def pyStartswith : PyStr → PyStr → Bool
  | [], _ => true
  | _ :: _, [] => false
  | p :: ps, s :: ss => p = s && pyStartswith ps ss

/-- The whitespace set stripped by Python str.strip(). -/
def isPySpace (c : Char) : Bool :=
  c = ' ' || c = '\t' || c = '\n' || c = '\r' || c = '\x0b' || c = '\x0c'

/-- Python str.strip(). -/
def pyStrip (s : PyStr) : PyStr :=
  ((s.dropWhile isPySpace).reverse.dropWhile isPySpace).reverse

/-- Python sep.join(parts). -/
def joinSep (sep : PyStr) : List PyStr → PyStr
  | [] => []
  | [x] => x
  | x :: y :: rest => x ++ sep ++ joinSep sep (y :: rest)

def commaJoin (xs : List PyStr) : PyStr := joinSep (pystr ", ") xs

/-! ## Retrieval Module rendering (methods retrieve_context and
retrieve_with_vector_search) -/

/-- One record of the keyword-retrieval query. -/
structure KeywordRecord where
  title : PyStr
  authors : List PyStr
  topics : List PyStr
  abstract : PyStr
  date : PyStr
deriving DecidableEq

/-- One record of the vector-retrieval query; simStr carries the
3-decimal rendering of the cosine similarity (float formatting is kept
abstract as the rendered text). -/
structure VectorRecord where
  title : PyStr
  authors : List PyStr
  topics : List PyStr
  abstract : PyStr
  simStr : PyStr
deriving DecidableEq

/-- Line 1 of the keyword f-string block: Article {i}: {title}. -/
def articleLine (i : Nat) (r : KeywordRecord) : PyStr :=
  pystr "Article " ++ natToStr i ++ pystr ": " ++ r.title

/-- Line 2: Authors: {joined authors, or N/A when the list is empty}. -/
def authorsLine (r : KeywordRecord) : PyStr :=
  pystr "Authors: " ++ (if r.authors.isEmpty then pystr "N/A" else commaJoin r.authors)

/-- Line 3: Topics: {joined topics, or N/A when the list is empty}. -/
def topicsLine (r : KeywordRecord) : PyStr :=
  pystr "Topics: " ++ (if r.topics.isEmpty then pystr "N/A" else commaJoin r.topics)

/-- Line 4: Abstract: {abstract}. -/
def abstractLine (r : KeywordRecord) : PyStr :=
  pystr "Abstract: " ++ r.abstract

/-- Line 5: Date: {date}. -/
def dateLine (r : KeywordRecord) : PyStr :=
  pystr "Date: " ++ r.date

/-- The f-string block built per keyword-retrieval record: a leading
newline, the five lines separated by newlines, and the terminator. -/
def keywordBlock (i : Nat) (r : KeywordRecord) : PyStr :=
  '\n' :: (articleLine i r ++ '\n' :: (authorsLine r ++ '\n' :: (topicsLine r ++
    '\n' :: (abstractLine r ++ '\n' :: (dateLine r ++ '\n' :: pystr "---")))))

example : keywordBlock 1 ⟨pystr "AI in Healthcare", [pystr "Emily Chen"],
    [pystr "AI"], pystr "Deep learning.", pystr "2024-01-01"⟩ =
    pystr "\nArticle 1: AI in Healthcare\nAuthors: Emily Chen\nTopics: AI\nAbstract: Deep learning.\nDate: 2024-01-01\n---" := by
  decide

/-- The rendered keyword-mode context: blocks joined by blank lines. -/
def renderKeywordContext (recs : List KeywordRecord) : PyStr :=
  joinSep (pystr "\n\n") ((List.enumFrom 1 recs).map (fun p => keywordBlock p.1 p.2))

/-- Line 1 of the vector f-string block: the similarity sits on the
Article line, rendered to three decimals. -/
def vArticleLine (i : Nat) (r : VectorRecord) : PyStr :=
  pystr "Article " ++ natToStr i ++ pystr " (Similarity: " ++ r.simStr ++ pystr "):"

/-- Line 2 of the vector block: Title: {title}. -/
def vTitleLine (r : VectorRecord) : PyStr :=
  pystr "Title: " ++ r.title

/-- Line 3 of the vector block (no N/A fallback in the source). -/
def vAuthorsLine (r : VectorRecord) : PyStr :=
  pystr "Authors: " ++ commaJoin r.authors

/-- Line 4 of the vector block. -/
def vTopicsLine (r : VectorRecord) : PyStr :=
  pystr "Topics: " ++ commaJoin r.topics

/-- Line 5 of the vector block. -/
def vAbstractLine (r : VectorRecord) : PyStr :=
  pystr "Abstract: " ++ r.abstract

/-- The f-string block built per vector-retrieval record. -/
def vectorBlock (i : Nat) (r : VectorRecord) : PyStr :=
  '\n' :: (vArticleLine i r ++ '\n' :: (vTitleLine r ++ '\n' :: (vAuthorsLine r ++
    '\n' :: (vTopicsLine r ++ '\n' :: (vAbstractLine r ++ '\n' :: pystr "---")))))

example : vectorBlock 1 ⟨pystr "AI in Healthcare", [pystr "Emily Chen"],
    [pystr "AI"], pystr "Deep learning.", pystr "0.923"⟩ =
    pystr "\nArticle 1 (Similarity: 0.923):\nTitle: AI in Healthcare\nAuthors: Emily Chen\nTopics: AI\nAbstract: Deep learning.\n---" := by
  decide

/-- The rendered vector-mode context. -/
def renderVectorContext (recs : List VectorRecord) : PyStr :=
  joinSep (pystr "\n\n") ((List.enumFrom 1 recs).map (fun p => vectorBlock p.1 p.2))

/-! ## extract_sources and the main RAG query method -/

def extractLoop : List PyStr → List PyStr → List PyStr
  | [], acc => acc
  | line :: rest, acc =>
    if pyStartswith (pystr "Article") line && pyElem ':' line then
      extractLoop rest (acc ++ [pyStrip (afterChar ':' line)])
    else
      extractLoop rest acc

/-- Shallow embedding of extract_sources: collect, over the lines of
the context, the stripped text after the first colon of every line
starting with Article. -/
def extract_sources (context : PyStr) : List PyStr :=
  extractLoop (splitOnChar '\n' context) []

/-- Oracles for one RAG query: the two retrieval queries (returning
typed records, or raising) and the answer-generation completion. -/
structure RagEnv where
  keywordRetrieve : PyStr → Except PyStr (List KeywordRecord)
  vectorRetrieve : PyStr → Except PyStr (List VectorRecord)
  genAnswer : Except PyStr PyStr

/-- The dictionary returned by query (elapsed time omitted). -/
structure RagResult where
  answer : PyStr
  context : PyStr
  sources : List PyStr
deriving DecidableEq

/-- One query run: its outcome plus the number of answer-generation
completion calls made. -/
structure QueryRun where
  result : Except PyStr RagResult
  genCalls : Nat

def retrieve_context (env : RagEnv) (question : PyStr) : Except PyStr PyStr :=
  (env.keywordRetrieve question).map renderKeywordContext

def retrieve_with_vector_search (env : RagEnv) (question : PyStr) : Except PyStr PyStr :=
  (env.vectorRetrieve question).map renderVectorContext

/-- Shallow embedding of the main RAG query method. -/
def query (env : RagEnv) (question : PyStr) (useVectorSearch : Bool) : QueryRun :=
  match (if useVectorSearch then retrieve_with_vector_search env question
         else retrieve_context env question) with
  | .error e => ⟨.error e, 0⟩
  | .ok context =>
    if context.isEmpty then
      ⟨.ok ⟨pystr "I couldn\x27t find any relevant information in the knowledge graph.", [], []⟩, 0⟩
    else
      match env.genAnswer with
      | .error e => ⟨.error e, 1⟩
      | .ok answer => ⟨.ok ⟨answer, context, extract_sources context⟩, 1⟩

/-- C5: whichever retrieval strategy is selected, if it produces an
empty context the query short-circuits to the canned no-information
answer with empty context and sources, and the answer-generation
completion service is not invoked. -/
theorem c5_empty_context_short_circuit (env : RagEnv) (question : PyStr) :
    (∀ recs, env.keywordRetrieve question = .ok recs → renderKeywordContext recs = [] →
      query env question false =
        ⟨.ok ⟨pystr "I couldn\x27t find any relevant information in the knowledge graph.", [], []⟩, 0⟩) ∧
    (∀ recs, env.vectorRetrieve question = .ok recs → renderVectorContext recs = [] →
      query env question true =
        ⟨.ok ⟨pystr "I couldn\x27t find any relevant information in the knowledge graph.", [], []⟩, 0⟩) := by
  constructor
  · intro recs h1 h2
    simp [query, retrieve_context, h1, Except.map, h2]
  · intro recs h1 h2
    simp [query, retrieve_with_vector_search, h1, Except.map, h2]

/-- C5 witness: a corpus with no keyword and no vector matches yields
the canned answer in both modes with zero generation calls. -/
def c5Env : RagEnv :=
  ⟨fun _ => .ok [], fun _ => .ok [], .ok (pystr "not used")⟩

theorem c5_empty_context_short_circuit_witness :
    query c5Env (pystr "unknown topic") false =
      ⟨.ok ⟨pystr "I couldn\x27t find any relevant information in the knowledge graph.", [], []⟩, 0⟩ ∧
    query c5Env (pystr "unknown topic") true =
      ⟨.ok ⟨pystr "I couldn\x27t find any relevant information in the knowledge graph.", [], []⟩, 0⟩ :=
  ⟨(c5_empty_context_short_circuit c5Env (pystr "unknown topic")).1 [] rfl rfl,
   (c5_empty_context_short_circuit c5Env (pystr "unknown topic")).2 [] rfl rfl⟩

/-! ## C9: sources extracted from rendered contexts -/

/-- C9 counterexample input: one vector-retrieval record. -/
def c9VectorRec : VectorRecord :=
  ⟨pystr "AI in Healthcare", [pystr "Emily Chen"], [pystr "AI"], pystr "Deep learning.", pystr "0.923"⟩

/-- C9 counterexample: on a vector-strategy context the line-prefix
matcher fires on the Article line, whose first colon belongs to the
similarity annotation, so the extracted source is the similarity
fragment and not the document title. -/
theorem c9_counterexample_vector_context :
    extract_sources (renderVectorContext [c9VectorRec]) = [pystr "0.923):"] ∧
    extract_sources (renderVectorContext [c9VectorRec]) ≠ [c9VectorRec.title] := by
  decide

/-! Digit-character facts for the rendered article index. -/

lemma digitChar_ne_newline (d : Nat) : digitChar d ≠ '\n' := by
  unfold digitChar
  split <;> decide

lemma digitChar_ne_colon (d : Nat) : digitChar d ≠ ':' := by
  unfold digitChar
  split <;> decide

lemma natToStrGo_mem : ∀ (fuel n : Nat) (acc : PyStr) (c : Char),
    c ∈ natToStrGo fuel n acc → (∃ d, c = digitChar d) ∨ c ∈ acc := by
  intro fuel
  induction fuel with
  | zero => intro n acc c h; exact Or.inr h
  | succ f ih =>
    intro n acc c h
    unfold natToStrGo at h
    split at h
    · rcases List.mem_cons.mp h with h1 | h2
      · exact Or.inl ⟨n % 10, h1⟩
      · exact Or.inr h2
    · rcases ih _ _ _ h with h1 | h2
      · exact Or.inl h1
      · rcases List.mem_cons.mp h2 with h3 | h4
        · exact Or.inl ⟨n % 10, h3⟩
        · exact Or.inr h4

lemma natToStr_mem {n : Nat} {c : Char} (h : c ∈ natToStr n) : ∃ d, c = digitChar d := by
  rcases natToStrGo_mem _ _ _ _ h with h1 | h2
  · exact h1
  · cases h2

lemma natToStr_not_newline (n : Nat) : '\n' ∉ natToStr n := by
  intro h
  rcases natToStr_mem h with ⟨d, hd⟩
  exact digitChar_ne_newline d hd.symm

lemma natToStr_not_colon (n : Nat) : ':' ∉ natToStr n := by
  intro h
  rcases natToStr_mem h with ⟨d, hd⟩
  exact digitChar_ne_colon d hd.symm

/-! Facts about splitOnChar. -/

lemma splitOnChar_ne_nil (c : Char) (s : PyStr) : splitOnChar c s ≠ [] := by
  cases s with
  | nil => simp [splitOnChar]
  | cons x xs =>
    unfold splitOnChar
    split
    · simp
    · split <;> simp

lemma splitOnChar_cons_self (c : Char) (s : PyStr) :
    splitOnChar c (c :: s) = [] :: splitOnChar c s := by
  rcases h : splitOnChar c s with _ | ⟨h1, t⟩
  · exact absurd h (splitOnChar_ne_nil c s)
  · show (match splitOnChar c s with
      | [] => [[]]
      | h :: t => if c = c then [] :: h :: t else (c :: h) :: t) = [] :: h1 :: t
    rw [h]
    simp

lemma splitOnChar_not_mem {c : Char} {s : PyStr} (h : c ∉ s) : splitOnChar c s = [s] := by
  induction s with
  | nil => rfl
  | cons x xs ih =>
    have hx : x ≠ c := fun he => h (by simp [he])
    have hxs : c ∉ xs := fun hm => h (List.mem_cons_of_mem _ hm)
    unfold splitOnChar
    rw [ih hxs]
    simp [hx]

lemma splitOnChar_append_cons {c : Char} {a : PyStr} (b : PyStr) (h : c ∉ a) :
    splitOnChar c (a ++ c :: b) = a :: splitOnChar c b := by
  induction a with
  | nil => simpa using splitOnChar_cons_self c b
  | cons x xs ih =>
    have hx : x ≠ c := fun he => h (by simp [he])
    have hxs : c ∉ xs := fun hm => h (List.mem_cons_of_mem _ hm)
    show (match splitOnChar c (xs ++ c :: b) with
      | [] => [[]]
      | h :: t => if x = c then [] :: h :: t else (x :: h) :: t) = (x :: xs) :: splitOnChar c b
    rw [ih hxs]
    simp [hx]

/-! Facts about pyElem, afterChar, pyStrip and extractLoop. -/

lemma pyElem_append (c : Char) (a b : PyStr) :
    pyElem c (a ++ b) = (pyElem c a || pyElem c b) := by
  induction a with
  | nil => simp [pyElem]
  | cons x xs ih => simp [pyElem, ih, Bool.or_assoc]

lemma afterChar_append_of_not_mem {c : Char} {a : PyStr} (h : c ∉ a) (b : PyStr) :
    afterChar c (a ++ b) = afterChar c b := by
  induction a with
  | nil => rfl
  | cons x xs ih =>
    have hx : x ≠ c := fun he => h (by simp [he])
    have hxs : c ∉ xs := fun hm => h (List.mem_cons_of_mem _ hm)
    simp [afterChar, hx, ih hxs]

lemma pyStrip_cons_space (t : PyStr) : pyStrip (' ' :: t) = pyStrip t := rfl

lemma extractLoop_go (ls : List PyStr) (acc : List PyStr) :
    extractLoop ls acc = acc ++ extractLoop ls [] := by
  induction ls generalizing acc with
  | nil => simp [extractLoop]
  | cons line rest ih =>
    unfold extractLoop
    split
    · rw [ih (acc ++ _), ih ([] ++ _)]
      simp
    · exact ih acc

lemma extractLoop_skip {line : PyStr} (h : pyStartswith (pystr "Article") line = false)
    (rest : List PyStr) (acc : List PyStr) :
    extractLoop (line :: rest) acc = extractLoop rest acc := by
  simp only [extractLoop]
  simp [h]

lemma sw_nil : pyStartswith (pystr "Article") [] = false := rfl

lemma sw_dashes : pyStartswith (pystr "Article") (pystr "---") = false := rfl

/-! Line-level facts for the keyword-mode block. -/

lemma sw_articleLine (i : Nat) (r : KeywordRecord) :
    pyStartswith (pystr "Article") (articleLine i r) = true := rfl

lemma sw_authorsLine (r : KeywordRecord) :
    pyStartswith (pystr "Article") (authorsLine r) = false := rfl

lemma sw_topicsLine (r : KeywordRecord) :
    pyStartswith (pystr "Article") (topicsLine r) = false := rfl

lemma sw_abstractLine (r : KeywordRecord) :
    pyStartswith (pystr "Article") (abstractLine r) = false := rfl

lemma sw_dateLine (r : KeywordRecord) :
    pyStartswith (pystr "Article") (dateLine r) = false := rfl

lemma elem_articleLine (i : Nat) (r : KeywordRecord) :
    pyElem ':' (articleLine i r) = true := by
  unfold articleLine
  rw [pyElem_append, pyElem_append, pyElem_append]
  have h : pyElem ':' (pystr ": ") = true := rfl
  simp [h]

lemma afterChar_articleLine (i : Nat) (r : KeywordRecord) :
    afterChar ':' (articleLine i r) = ' ' :: r.title := by
  unfold articleLine
  rw [List.append_assoc, List.append_assoc]
  rw [afterChar_append_of_not_mem (by decide), afterChar_append_of_not_mem (natToStr_not_colon i)]
  rfl

lemma extractLoop_articleLine (i : Nat) (r : KeywordRecord)
    (hT : pyStrip r.title = r.title) (rest : List PyStr) (acc : List PyStr) :
    extractLoop (articleLine i r :: rest) acc = extractLoop rest (acc ++ [r.title]) := by
  have hv : pyStrip (afterChar ':' (articleLine i r)) = r.title := by
    rw [afterChar_articleLine, pyStrip_cons_space, hT]
  simp only [extractLoop]
  simp [sw_articleLine, elem_articleLine, hv]

/-! Newline-freeness of the rendered lines. -/

lemma not_mem_append' {c : Char} {a b : PyStr} (ha : c ∉ a) (hb : c ∉ b) :
    c ∉ a ++ b := by
  intro h
  rcases List.mem_append.mp h with h | h
  · exact ha h
  · exact hb h

lemma joinSep_not_mem {c : Char} {sep : PyStr} (hsep : c ∉ sep) :
    ∀ {xs : List PyStr}, (∀ x ∈ xs, c ∉ x) → c ∉ joinSep sep xs := by
  intro xs
  induction xs with
  | nil =>
    intro _ h
    exact absurd h (List.not_mem_nil c)
  | cons x xs ih =>
    cases xs with
    | nil =>
      intro h
      simpa [joinSep] using h x (by simp)
    | cons y ys =>
      intro h
      show c ∉ x ++ sep ++ joinSep sep (y :: ys)
      exact not_mem_append' (not_mem_append' (h x (by simp)) hsep)
        (ih (fun z hz => h z (by simp [hz])))

/-- Cleanliness assumptions on one keyword-retrieval record: fields
contain no newline and the title carries no surrounding whitespace. -/
structure CleanRecord (r : KeywordRecord) : Prop where
  title_nf : '\n' ∉ r.title
  title_stripped : pyStrip r.title = r.title
  authors_nf : ∀ a ∈ r.authors, '\n' ∉ a
  topics_nf : ∀ t ∈ r.topics, '\n' ∉ t
  abstract_nf : '\n' ∉ r.abstract
  date_nf : '\n' ∉ r.date

lemma nf_articleLine (i : Nat) {r : KeywordRecord} (hc : CleanRecord r) :
    '\n' ∉ articleLine i r := by
  unfold articleLine
  exact not_mem_append' (not_mem_append' (not_mem_append' (by decide)
    (natToStr_not_newline i)) (by decide)) hc.title_nf

lemma nf_authorsLine {r : KeywordRecord} (hc : CleanRecord r) :
    '\n' ∉ authorsLine r := by
  unfold authorsLine
  apply not_mem_append' (by decide)
  split
  · decide
  · exact joinSep_not_mem (by decide) hc.authors_nf

lemma nf_topicsLine {r : KeywordRecord} (hc : CleanRecord r) :
    '\n' ∉ topicsLine r := by
  unfold topicsLine
  apply not_mem_append' (by decide)
  split
  · decide
  · exact joinSep_not_mem (by decide) hc.topics_nf

lemma nf_abstractLine {r : KeywordRecord} (hc : CleanRecord r) :
    '\n' ∉ abstractLine r := by
  unfold abstractLine
  exact not_mem_append' (by decide) hc.abstract_nf

lemma nf_dateLine {r : KeywordRecord} (hc : CleanRecord r) :
    '\n' ∉ dateLine r := by
  unfold dateLine
  exact not_mem_append' (by decide) hc.date_nf

/-! Splitting one keyword block into its lines. -/

lemma split_keywordBlock (i : Nat) {r : KeywordRecord} (hc : CleanRecord r) (tail : PyStr) :
    splitOnChar '\n' (keywordBlock i r ++ '\n' :: tail) =
      [] :: articleLine i r :: authorsLine r :: topicsLine r :: abstractLine r ::
        dateLine r :: pystr "---" :: splitOnChar '\n' tail := by
  unfold keywordBlock
  rw [List.cons_append, splitOnChar_cons_self]
  simp only [List.append_assoc, List.cons_append]
  rw [splitOnChar_append_cons _ (nf_articleLine i hc),
    splitOnChar_append_cons _ (nf_authorsLine hc),
    splitOnChar_append_cons _ (nf_topicsLine hc),
    splitOnChar_append_cons _ (nf_abstractLine hc),
    splitOnChar_append_cons _ (nf_dateLine hc),
    splitOnChar_append_cons _ (by decide : '\n' ∉ pystr "---")]

lemma split_keywordBlock_last (i : Nat) {r : KeywordRecord} (hc : CleanRecord r) :
    splitOnChar '\n' (keywordBlock i r) =
      [] :: articleLine i r :: authorsLine r :: topicsLine r :: abstractLine r ::
        dateLine r :: [pystr "---"] := by
  unfold keywordBlock
  rw [splitOnChar_cons_self]
  rw [splitOnChar_append_cons _ (nf_articleLine i hc),
    splitOnChar_append_cons _ (nf_authorsLine hc),
    splitOnChar_append_cons _ (nf_topicsLine hc),
    splitOnChar_append_cons _ (nf_abstractLine hc),
    splitOnChar_append_cons _ (nf_dateLine hc),
    splitOnChar_not_mem (by decide : '\n' ∉ pystr "---")]

/-- Walking the extractor over the seven lines of one block appends
exactly the record title. -/
lemma extractLoop_keywordLines (i : Nat) {r : KeywordRecord} (hc : CleanRecord r)
    (rest : List PyStr) (acc : List PyStr) :
    extractLoop ([] :: articleLine i r :: authorsLine r :: topicsLine r :: abstractLine r ::
      dateLine r :: pystr "---" :: rest) acc = extractLoop rest (acc ++ [r.title]) := by
  rw [extractLoop_skip sw_nil, extractLoop_articleLine i r hc.title_stripped,
    extractLoop_skip (sw_authorsLine r), extractLoop_skip (sw_topicsLine r),
    extractLoop_skip (sw_abstractLine r), extractLoop_skip (sw_dateLine r),
    extractLoop_skip sw_dashes]

lemma c9_aux (recs : List KeywordRecord) : ∀ (i : Nat), (∀ r ∈ recs, CleanRecord r) →
    extractLoop (splitOnChar '\n' (joinSep (pystr "\n\n")
      ((List.enumFrom i recs).map (fun p => keywordBlock p.1 p.2)))) [] =
    recs.map (fun r => r.title) := by
  induction recs with
  | nil => intro i _; rfl
  | cons r rs ih =>
    intro i h
    have hc : CleanRecord r := h r (by simp)
    have hcs : ∀ x ∈ rs, CleanRecord x := fun x hx => h x (by simp [hx])
    cases rs with
    | nil =>
      show extractLoop (splitOnChar '\n' (keywordBlock i r)) [] = [r.title]
      rw [split_keywordBlock_last i hc, extractLoop_keywordLines i hc]
      rfl
    | cons r2 rs' =>
      show extractLoop (splitOnChar '\n' (keywordBlock i r ++ pystr "\n\n" ++
        joinSep (pystr "\n\n") ((List.enumFrom (i + 1) (r2 :: rs')).map
          (fun p => keywordBlock p.1 p.2)))) [] = r.title :: (r2 :: rs').map (fun r => r.title)
      have hassoc : keywordBlock i r ++ pystr "\n\n" ++
          joinSep (pystr "\n\n") ((List.enumFrom (i + 1) (r2 :: rs')).map
            (fun p => keywordBlock p.1 p.2)) =
          keywordBlock i r ++ '\n' :: ('\n' :: joinSep (pystr "\n\n")
            ((List.enumFrom (i + 1) (r2 :: rs')).map (fun p => keywordBlock p.1 p.2))) := by
        rw [List.append_assoc]
        rfl
      rw [hassoc, split_keywordBlock i hc, splitOnChar_cons_self,
        extractLoop_keywordLines i hc, extractLoop_skip sw_nil, extractLoop_go]
      rw [ih (i + 1) hcs]
      rfl

/-- C9 amended: for keyword-strategy contexts over records whose fields
are newline-free and whose titles carry no surrounding whitespace, the
extracted sources are exactly the record titles in retrieval order
(distinct whenever the titles are distinct).  For vector-strategy
contexts the claim fails: see the counterexample. -/
theorem c9_keyword_sources (recs : List KeywordRecord)
    (h : ∀ r ∈ recs, CleanRecord r) :
    extract_sources (renderKeywordContext recs) = recs.map (fun r => r.title) := by
  unfold extract_sources renderKeywordContext
  exact c9_aux recs 1 h

/-- C9 witness: a one-record keyword context yields exactly that title. -/
def c9KeywordRec : KeywordRecord :=
  ⟨pystr "AI in Healthcare", [pystr "Emily Chen"], [pystr "AI"], pystr "Deep learning.", pystr "2024-01-01"⟩

theorem c9_keyword_sources_witness :
    extract_sources (renderKeywordContext [c9KeywordRec]) = [pystr "AI in Healthcare"] :=
  c9_keyword_sources [c9KeywordRec] (by
    intro r hr
    simp only [List.mem_singleton] at hr
    subst hr
    exact ⟨by decide, by decide, by decide, by decide, by decide, by decide⟩)

/-! ## Query Translator and KG execution pipeline -/

/-- Fuel-based Python str.replace (all non-overlapping occurrences,
left to right); the fuel supplied by pyReplace always suffices. -/
def pyReplaceGo : Nat → PyStr → PyStr → PyStr → PyStr
  | 0, s, _, _ => s
  | _ + 1, [], _, _ => []
  | fuel + 1, x :: xs, pat, rep =>
    if pat ≠ [] ∧ pyStartswith pat (x :: xs) = true then
      rep ++ pyReplaceGo fuel (xs.drop (pat.length - 1)) pat rep
    else
      x :: pyReplaceGo fuel xs pat rep

def pyReplace (s pat rep : PyStr) : PyStr := pyReplaceGo (s.length + 1) s pat rep

/-- Fuel-based Python str.split on a substring pattern. -/
def pySplitOnGo : Nat → PyStr → PyStr → List PyStr
  | 0, s, _ => [s]
  | _ + 1, [], _ => [[]]
  | fuel + 1, x :: xs, pat =>
    if pat ≠ [] ∧ pyStartswith pat (x :: xs) = true then
      [] :: pySplitOnGo fuel (xs.drop (pat.length - 1)) pat
    else
      match pySplitOnGo fuel xs pat with
      | [] => [[x]]
      | h :: t => (x :: h) :: t

def pySplitOn (s pat : PyStr) : List PyStr := pySplitOnGo (s.length + 1) s pat

/-- Python substring membership test pat in s. -/
def containsSub (pat : PyStr) : PyStr → Bool
  | [] => pyStartswith pat []
  | x :: xs => pyStartswith pat (x :: xs) || containsSub pat xs

example : pySplitOn (pystr "ab```cd") (pystr "```") = [pystr "ab", pystr "cd"] := by decide

example : pyReplace (pystr "x```cypher y") (pystr "```cypher") [] = pystr "x y" := by decide

/-- The result dictionary of text_to_cypher. -/
structure TransResult where
  success : Bool
  cypher : Option PyStr
  error : Option PyStr
deriving DecidableEq

/-- Oracles of the KG branch: the schema sampling query, the
Cypher-generation completion, execution of the generated query, the
extractor lookups, and the explanation completion. -/
structure KgEnv where
  schemaQuery : Except PyStr (List PyRecord)
  cypherCompletion : PyStr → Except PyStr PyStr
  runCypher : PyStr → Except PyStr (List PyRecord)
  extract : ExtractOracle
  explainCompletion : Except PyStr PyStr

/-- Post-processing of the completion output in text_to_cypher:
content.strip(), then stripping of code-fence markers, then strip. -/
def cleanCypher (raw : PyStr) : PyStr :=
  pyStrip (pyReplace (pyReplace (pyStrip raw) (pystr "```cypher") []) (pystr "```") [])

/-- Shallow embedding of text_to_cypher.  The schema query runs before
the try block, so its exception propagates; only the completion call is
guarded. -/
def text_to_cypher (env : KgEnv) (question : PyStr) : Except PyStr TransResult :=
  match env.schemaQuery with
  | .error e => .error e
  | .ok _samples =>
    match env.cypherCompletion question with
    | .error e => .ok ⟨false, none, some e⟩
    | .ok raw => .ok ⟨true, some (cleanCypher raw), none⟩

/-- The result dictionary of execute_text_to_cypher; absent keys are
none. -/
structure ExecResult where
  success : Bool
  cypher : Option PyStr
  results : Option (List PyRecord)
  result_count : Option Nat
  graph_data : Option GraphSnapshot
  error : Option PyStr
deriving DecidableEq

/-- Shallow embedding of execute_text_to_cypher (the local cypher
variable of the source is inlined). -/
def execute_text_to_cypher (env : KgEnv) (question : PyStr) : Except PyStr ExecResult :=
  match text_to_cypher env question with
  | .error e => .error e
  | .ok tr =>
    if tr.success = false then
      .ok ⟨false, none, none, none, none,
        some (pystr "Failed to generate Cypher: " ++ tr.error.getD [])⟩
    else
      match env.runCypher (tr.cypher.getD []) with
      | .ok results =>
        .ok ⟨true, some (tr.cypher.getD []), some results, some results.length,
          some (extract_graph_from_results env.extract results (tr.cypher.getD [])).snapshot,
          none⟩
      | .error e =>
        .ok ⟨false, some (tr.cypher.getD []), some [], some 0, some ⟨[], []⟩,
          some (pystr "Cypher execution error: " ++ e)⟩

/-! ## format_kg_results and kg_query_with_explanation -/

def scalarStr : PyScalar → PyStr
  | .str s => s
  | .other rendered => rendered

/-- How one value is rendered in a formatted row: lists are pre-joined
from the renderings of their first five elements. -/
def pyValFmt : PyVal → PyStr
  | .scalar v => scalarStr v
  | .list es => joinSep (pystr ", ") ((es.take 5).map scalarStr)

def formatRow (p : Nat × PyRecord) : PyStr :=
  p.2.foldl (fun acc kv => acc ++ pystr "\n  • " ++ kv.1 ++ pystr ": " ++ pyValFmt kv.2)
    (pystr "Result " ++ natToStr p.1 ++ pystr ":")

/-- Shallow embedding of format_kg_results. -/
def format_kg_results (results : List PyRecord) : PyStr :=
  if results.isEmpty then pystr "No results found."
  else joinSep (pystr "\n\n") ((List.enumFrom 1 (results.take 20)).map formatRow)

/-- The result dictionary of kg_query_with_explanation (constant method
label and elapsed time omitted). -/
structure KgAnswer where
  success : Bool
  error : Option PyStr
  answer : PyStr
  cypher : Option PyStr
  results : Option (List PyRecord)
  result_count : Option Nat
  formatted_results : Option PyStr
  graph_data : Option GraphSnapshot
deriving DecidableEq

/-- Shallow embedding of kg_query_with_explanation. -/
def kg_query_with_explanation (env : KgEnv) (question : PyStr) : Except PyStr KgAnswer :=
  match execute_text_to_cypher env question with
  | .error e => .error e
  | .ok kg =>
    if kg.success = false then
      .ok ⟨false, kg.error, pystr "Failed to query knowledge graph: " ++ kg.error.getD [],
        none, none, none, none, none⟩
    else
      .ok ⟨true, none,
        (match env.explainCompletion with
         | .ok a => a
         | .error e =>
           pystr "Found " ++ natToStr (kg.result_count.getD 0) ++
             pystr " results, but failed to generate explanation: " ++ e),
        kg.cypher, kg.results, kg.result_count,
        some (format_kg_results (kg.results.getD [])),
        some (kg.graph_data.getD ⟨[], []⟩)⟩

/-- C8: the Translator reports success=false exactly when the
completion service raised; a translation failure and an execution
failure produce distinct unsuccessful outcomes — the latter marked by
the execution-error message with the offending query string
preserved. -/
theorem c8_translation_vs_execution_failure (env : KgEnv) (question : PyStr) :
    (∀ tr, text_to_cypher env question = .ok tr →
      (tr.success = false ↔ ∃ e, env.cypherCompletion question = .error e)) ∧
    (∀ samples e, env.schemaQuery = .ok samples →
      env.cypherCompletion question = .error e →
      execute_text_to_cypher env question =
        .ok ⟨false, none, none, none, none, some (pystr "Failed to generate Cypher: " ++ e)⟩) ∧
    (∀ samples raw e, env.schemaQuery = .ok samples →
      env.cypherCompletion question = .ok raw →
      env.runCypher (cleanCypher raw) = .error e →
      execute_text_to_cypher env question =
        .ok ⟨false, some (cleanCypher raw), some [], some 0, some ⟨[], []⟩,
          some (pystr "Cypher execution error: " ++ e)⟩) := by
  refine ⟨?_, ?_, ?_⟩
  · intro tr htr
    cases hs : env.schemaQuery with
    | error e => simp [text_to_cypher, hs] at htr
    | ok samples =>
      cases hcc : env.cypherCompletion question with
      | error e =>
        simp only [text_to_cypher, hs, hcc, Except.ok.injEq] at htr
        subst htr
        simp [hcc]
      | ok raw =>
        simp only [text_to_cypher, hs, hcc, Except.ok.injEq] at htr
        subst htr
        simp only [Bool.true_eq_false, false_iff]
        rintro ⟨e, he⟩
        exact Except.noConfusion he
  · intro samples e hs hcc
    simp [execute_text_to_cypher, text_to_cypher, hs, hcc]
  · intro samples raw e hs hcc hrun
    simp [execute_text_to_cypher, text_to_cypher, hs, hcc, hrun]

/-- C8 witness: concrete environments exercising the execution-failure
outcome, the translation-failure outcome, and the success-iff
characterisation. -/
def c8Env : KgEnv :=
  ⟨.ok [], fun _ => .ok (pystr "MATCH (x) RETURN y"),
   fun _ => .error (pystr "Variable y not defined"),
   ⟨fun _ => .ok [], fun _ => .ok []⟩, .ok (pystr "unused")⟩

def c8EnvT : KgEnv :=
  ⟨.ok [], fun _ => .error (pystr "api down"),
   fun _ => .ok [], ⟨fun _ => .ok [], fun _ => .ok []⟩, .ok (pystr "unused")⟩

theorem c8_translation_vs_execution_failure_witness :
    execute_text_to_cypher c8Env (pystr "list articles") =
      .ok ⟨false, some (pystr "MATCH (x) RETURN y"), some [], some 0, some ⟨[], []⟩,
        some (pystr "Cypher execution error: Variable y not defined")⟩ ∧
    execute_text_to_cypher c8EnvT (pystr "list articles") =
      .ok ⟨false, none, none, none, none, some (pystr "Failed to generate Cypher: api down")⟩ ∧
    ((⟨false, none, some (pystr "api down")⟩ : TransResult).success = false ↔
      ∃ e, c8EnvT.cypherCompletion (pystr "list articles") = .error e) :=
  ⟨(c8_translation_vs_execution_failure c8Env (pystr "list articles")).2.2
      [] (pystr "MATCH (x) RETURN y") (pystr "Variable y not defined") rfl rfl rfl,
   (c8_translation_vs_execution_failure c8EnvT (pystr "list articles")).2.1
      [] (pystr "api down") rfl rfl,
   (c8_translation_vs_execution_failure c8EnvT (pystr "list articles")).1
      ⟨false, none, some (pystr "api down")⟩ rfl⟩

/-- Helper: a successful execution carries cypher, results, count and
graph data. -/
lemma execute_success_fields (env : KgEnv) (question : PyStr) (kg : ExecResult)
    (hexec : execute_text_to_cypher env question = .ok kg) (hsucc : kg.success = true) :
    ∃ cypher results, kg.cypher = some cypher ∧ kg.results = some results ∧
      kg.result_count = some results.length ∧
      kg.graph_data = some (extract_graph_from_results env.extract results cypher).snapshot := by
  unfold execute_text_to_cypher at hexec
  cases h1 : text_to_cypher env question with
  | error e => simp [h1] at hexec
  | ok tr =>
    simp only [h1] at hexec
    by_cases h2 : tr.success = false
    · rw [if_pos h2] at hexec
      simp only [Except.ok.injEq] at hexec
      subst hexec
      cases hsucc
    · rw [if_neg h2] at hexec
      cases h3 : env.runCypher (tr.cypher.getD []) with
      | ok results =>
        simp only [h3] at hexec
        simp only [Except.ok.injEq] at hexec
        subst hexec
        exact ⟨tr.cypher.getD [], results, rfl, rfl, rfl, rfl⟩
      | error e =>
        simp only [h3] at hexec
        simp only [Except.ok.injEq] at hexec
        subst hexec
        cases hsucc

/-- C10: when execution succeeded but the explanation completion
raises, kg_query_with_explanation still succeeds, with the fallback
answer reporting the result count and the failure message, and with
cypher, results, result_count and graph_data passed through unchanged
from the execution step. -/
theorem c10_explanation_failure_fallback (env : KgEnv) (question : PyStr)
    (kg : ExecResult) (e : PyStr)
    (hexec : execute_text_to_cypher env question = .ok kg)
    (hsucc : kg.success = true)
    (hfail : env.explainCompletion = .error e) :
    kg_query_with_explanation env question = .ok
      ⟨true, none,
        pystr "Found " ++ natToStr (kg.result_count.getD 0) ++
          pystr " results, but failed to generate explanation: " ++ e,
        kg.cypher, kg.results, kg.result_count,
        some (format_kg_results (kg.results.getD [])),
        kg.graph_data⟩ := by
  rcases execute_success_fields env question kg hexec hsucc with
    ⟨cypher, results, hcy, hres, hcount, hgd⟩
  unfold kg_query_with_explanation
  simp only [hexec]
  rw [if_neg (by rw [hsucc]; simp)]
  simp only [hfail, hgd]
  rfl

/-- C10 witness: a concrete run whose execution succeeds and whose
explanation completion raises. -/
def c10Results : List PyRecord := [[(pystr "name", PyVal.scalar (.str (pystr "Emily Chen")))]]

def c10Env : KgEnv :=
  ⟨.ok [], fun _ => .ok (pystr "MATCH (n) RETURN n.name"),
   fun _ => .ok c10Results, ⟨fun _ => .ok [], fun _ => .ok []⟩,
   .error (pystr "rate limit")⟩

def c10Kg : ExecResult :=
  ⟨true, some (pystr "MATCH (n) RETURN n.name"), some c10Results, some 1, some ⟨[], []⟩, none⟩

theorem c10_explanation_failure_fallback_witness :
    execute_text_to_cypher c10Env (pystr "who wrote about AI") = .ok c10Kg ∧
    c10Kg.success = true ∧
    kg_query_with_explanation c10Env (pystr "who wrote about AI") = .ok
      ⟨true, none,
        pystr "Found " ++ natToStr (c10Kg.result_count.getD 0) ++
          pystr " results, but failed to generate explanation: " ++ pystr "rate limit",
        c10Kg.cypher, c10Kg.results, c10Kg.result_count,
        some (format_kg_results (c10Kg.results.getD [])),
        c10Kg.graph_data⟩ :=
  ⟨rfl, rfl,
   c10_explanation_failure_fallback c10Env (pystr "who wrote about AI") c10Kg
     (pystr "rate limit") rfl rfl rfl⟩

/-! ## LLM Judge comparison (compare_with_judge) -/

/-- The parsed-judgment dictionary fields of the fixed JSON schema. -/
structure JudgmentDict where
  winner : Option PyStr
  confidence : Option PyStr
  accuracy_score_a : Option Int
  accuracy_score_b : Option Int
  completeness_score_a : Option Int
  completeness_score_b : Option Int
  precision_score_a : Option Int
  precision_score_b : Option Int
  reasoning : Option PyStr
  strengths_a : Option (List PyStr)
  strengths_b : Option (List PyStr)
  weaknesses_a : Option (List PyStr)
  weaknesses_b : Option (List PyStr)
  recommendation : Option PyStr
deriving DecidableEq

def emptyJudgmentDict : JudgmentDict :=
  ⟨none, none, none, none, none, none, none, none, none, none, none, none, none, none⟩

/-- A Judgment is a parsed dictionary, a raw-text fallback or an error
marker — the three terminal dict shapes produced by the judge step.
A numeric score field is some only when present and numeric. -/
inductive Judgment where
  | parsed (d : JudgmentDict)
  | rawText (s : PyStr)
  | error (e : PyStr)
deriving DecidableEq

/-- Python truthiness of the judgment dict: the raw-text and error
dicts are nonempty, a parsed dict is falsy only when empty. -/
def judgmentTruthy : Judgment → Bool
  | .parsed d => d ≠ emptyJudgmentDict
  | .rawText _ => true
  | .error _ => true

/-- judgment.get applied to the winner key. -/
def judgmentGetWinner : Judgment → Option PyStr
  | .parsed d => d.winner
  | _ => none

/-- judgment.get applied to the confidence key. -/
def judgmentGetConfidence : Judgment → Option PyStr
  | .parsed d => d.confidence
  | _ => none

/-- judgment.get applied to accuracy_score_a, none when absent or not
numeric. -/
def judgmentAccuracyA : Judgment → Option Int
  | .parsed d => d.accuracy_score_a
  | _ => none

def judgmentAccuracyB : Judgment → Option Int
  | .parsed d => d.accuracy_score_b
  | _ => none

/-- Code-fence stripping applied to the judge completion output before
JSON parsing. -/
def stripJudgeFences (t : PyStr) : PyStr :=
  if containsSub (pystr "```json") t then
    pyStrip ((pySplitOn ((pySplitOn t (pystr "```json")).getD 1 []) (pystr "```")).getD 0 [])
  else if containsSub (pystr "```") t then
    pyStrip ((pySplitOn ((pySplitOn t (pystr "```")).getD 1 []) (pystr "```")).getD 0 [])
  else t

/-- Oracles for one full comparison: the RAG branch, the KG branch, the
judge completion, and JSON parsing of the judge output (none on a
decode error). -/
structure JudgeEnv where
  rag : RagEnv
  kg : KgEnv
  judgeCompletion : Except PyStr PyStr
  jsonLoads : PyStr → Option JudgmentDict

/-- The dictionary returned by compare_with_judge; keys absent in a
branch are none. -/
structure ComparisonRecord where
  question : PyStr
  winner : Option PyStr
  confidence : Option PyStr
  reason : Option PyStr
  judgment : Option Judgment
  rag_result : RagResult
  kg_result : KgAnswer

/-- One comparison run: the record plus the number of judge completion
invocations. -/
structure JudgeRun where
  record : ComparisonRecord
  judgeCalls : Nat

/-- Shallow embedding of compare_with_judge. -/
def compare_with_judge (env : JudgeEnv) (question : PyStr) : Except PyStr JudgeRun :=
  match (query env.rag question false).result with
  | .error e => .error e
  | .ok rag =>
    match kg_query_with_explanation env.kg question with
    | .error e => .error e
    | .ok kg =>
      if kg.success = false then
        .ok ⟨⟨question, some (pystr "RAG"), none, some (pystr "Knowledge Graph query failed"),
          none, rag, kg⟩, 0⟩
      else
        .ok ⟨⟨question,
          judgmentGetWinner (match env.judgeCompletion with
            | .error e => Judgment.error e
            | .ok text =>
              match env.jsonLoads (stripJudgeFences (pyStrip text)) with
              | some d => Judgment.parsed d
              | none => Judgment.rawText (stripJudgeFences (pyStrip text))),
          judgmentGetConfidence (match env.judgeCompletion with
            | .error e => Judgment.error e
            | .ok text =>
              match env.jsonLoads (stripJudgeFences (pyStrip text)) with
              | some d => Judgment.parsed d
              | none => Judgment.rawText (stripJudgeFences (pyStrip text))),
          none,
          some (match env.judgeCompletion with
            | .error e => Judgment.error e
            | .ok text =>
              match env.jsonLoads (stripJudgeFences (pyStrip text)) with
              | some d => Judgment.parsed d
              | none => Judgment.rawText (stripJudgeFences (pyStrip text))),
          rag, kg⟩, 1⟩

/-- C1: whenever the KG branch of a completed comparison is
unsuccessful, the record carries winner RAG with the fixed reason and a
null judgment, and the judge completion service was invoked zero
times. -/
theorem c1_kg_failure_short_circuit (env : JudgeEnv) (question : PyStr) (run : JudgeRun)
    (h : compare_with_judge env question = .ok run)
    (hfail : run.record.kg_result.success = false) :
    run.record.winner = some (pystr "RAG") ∧
    run.record.reason = some (pystr "Knowledge Graph query failed") ∧
    run.record.judgment = none ∧
    run.judgeCalls = 0 := by
  unfold compare_with_judge at h
  cases hq : (query env.rag question false).result with
  | error e => simp [hq] at h
  | ok rag =>
    simp only [hq] at h
    cases hkg : kg_query_with_explanation env.kg question with
    | error e => simp [hkg] at h
    | ok kg =>
      simp only [hkg] at h
      by_cases hs : kg.success = false
      · rw [if_pos hs] at h
        simp only [Except.ok.injEq] at h
        subst h
        exact ⟨rfl, rfl, rfl, rfl⟩
      · rw [if_neg hs] at h
        simp only [Except.ok.injEq] at h
        subst h
        exact absurd hfail hs

/-- C1 witness: a run whose KG branch fails at Cypher generation; the
comparison short-circuits deterministically. -/
def c1Env : JudgeEnv :=
  ⟨⟨fun _ => .ok [], fun _ => .ok [], .ok (pystr "unused")⟩,
   ⟨.ok [], fun _ => .error (pystr "API timeout"), fun _ => .ok [],
    ⟨fun _ => .ok [], fun _ => .ok []⟩, .ok (pystr "unused")⟩,
   .ok (pystr "unused"), fun _ => none⟩

def c1Run : JudgeRun :=
  ⟨⟨pystr "who are the collaborators of Emily Chen",
    some (pystr "RAG"), none, some (pystr "Knowledge Graph query failed"), none,
    ⟨pystr "I couldn\x27t find any relevant information in the knowledge graph.", [], []⟩,
    ⟨false, some (pystr "Failed to generate Cypher: API timeout"),
     pystr "Failed to query knowledge graph: Failed to generate Cypher: API timeout",
     none, none, none, none, none⟩⟩, 0⟩

theorem c1_kg_failure_short_circuit_witness :
    compare_with_judge c1Env (pystr "who are the collaborators of Emily Chen") = .ok c1Run ∧
    (c1Run.record.winner = some (pystr "RAG") ∧
     c1Run.record.reason = some (pystr "Knowledge Graph query failed") ∧
     c1Run.record.judgment = none ∧
     c1Run.judgeCalls = 0) :=
  ⟨rfl, c1_kg_failure_short_circuit c1Env
    (pystr "who are the collaborators of Emily Chen") c1Run rfl rfl⟩

/-! ## Batch aggregation (batch_judge_questions) -/

/-- Count of records whose winner field is the literal A. -/
def rag_wins (results : List ComparisonRecord) : Nat :=
  (results.filter (fun r => r.winner = some (pystr "A"))).length

/-- Count of records whose winner field is the literal B. -/
def kg_wins (results : List ComparisonRecord) : Nat :=
  (results.filter (fun r => r.winner = some (pystr "B"))).length

/-- Count of records whose winner field is the literal TIE. -/
def ties (results : List ComparisonRecord) : Nat :=
  (results.filter (fun r => r.winner = some (pystr "TIE"))).length

/-- A win percentage as printed: wins divided by the question count,
times one hundred. -/
def winPct (wins total : Nat) : ℚ := (wins : ℚ) / (total : ℚ) * 100

/-- The RAG accuracy sample: the accuracy_score_a values of records
whose judgment key holds a truthy dict carrying a numeric score. -/
def ragAccuracyScores (results : List ComparisonRecord) : List Int :=
  results.filterMap (fun r =>
    match r.judgment with
    | some j => if judgmentTruthy j then judgmentAccuracyA j else none
    | none => none)

/-- The KG accuracy sample, analogously from accuracy_score_b. -/
def kgAccuracyScores (results : List ComparisonRecord) : List Int :=
  results.filterMap (fun r =>
    match r.judgment with
    | some j => if judgmentTruthy j then judgmentAccuracyB j else none
    | none => none)

/-- Mean of a score sample, none when the sample is empty. -/
def meanScore (xs : List Int) : Option ℚ :=
  if xs.isEmpty then none else some ((xs.sum : ℚ) / xs.length)

def mean_rag_accuracy (results : List ComparisonRecord) : Option ℚ :=
  meanScore (ragAccuracyScores results)

def mean_kg_accuracy (results : List ComparisonRecord) : Option ℚ :=
  meanScore (kgAccuracyScores results)

/-! ## C6: the winner literal of KG-failure records in aggregation -/

def c6Env : JudgeEnv :=
  ⟨⟨fun _ => .ok [], fun _ => .ok [], .ok (pystr "unused")⟩,
   ⟨.ok [], fun _ => .error (pystr "connection reset"), fun _ => .ok [],
    ⟨fun _ => .ok [], fun _ => .ok []⟩, .ok (pystr "unused")⟩,
   .ok (pystr "unused"), fun _ => none⟩

/-- The record produced by a comparison whose KG branch failed: its
winner field holds the literal RAG, not A. -/
def c6FailRec : ComparisonRecord :=
  ⟨pystr "q1", some (pystr "RAG"), none, some (pystr "Knowledge Graph query failed"), none,
   ⟨pystr "I couldn\x27t find any relevant information in the knowledge graph.", [], []⟩,
   ⟨false, some (pystr "Failed to generate Cypher: connection reset"),
    pystr "Failed to query knowledge graph: Failed to generate Cypher: connection reset",
    none, none, none, none, none⟩⟩

def c6JudgmentA : JudgmentDict :=
  { emptyJudgmentDict with winner := some (pystr "A") }

def c6JudgmentB : JudgmentDict :=
  { emptyJudgmentDict with winner := some (pystr "B") }

def c6JudgmentTie : JudgmentDict :=
  { emptyJudgmentDict with winner := some (pystr "TIE") }

def c6KgOk : KgAnswer := ⟨true, none, [], none, none, none, none, none⟩

def c6RecA : ComparisonRecord :=
  ⟨pystr "qa", some (pystr "A"), some (pystr "high"), none,
   some (.parsed c6JudgmentA), ⟨[], [], []⟩, c6KgOk⟩

def c6RecB : ComparisonRecord :=
  ⟨pystr "q2", some (pystr "B"), some (pystr "high"), none,
   some (.parsed c6JudgmentB), ⟨[], [], []⟩, c6KgOk⟩

def c6RecTie : ComparisonRecord :=
  ⟨pystr "q3", some (pystr "TIE"), some (pystr "medium"), none,
   some (.parsed c6JudgmentTie), ⟨[], [], []⟩, c6KgOk⟩

/-- C6 failing input: a comparison run whose KG branch failed yields
winner RAG, yet batch aggregation counts only the literals A, B and
TIE, so that record lands in no bucket and rag_wins is 0 — against the
claim that every record whose winner is RAG is counted as a RAG win.
On the plain [A, B, TIE] batch the counts are 1, 1, 1 with 33.3% each,
which is the part of the claim the code does satisfy. -/
theorem c6_rag_literal_not_counted :
    compare_with_judge c6Env (pystr "q1") = .ok ⟨c6FailRec, 0⟩ ∧
    c6FailRec.winner = some (pystr "RAG") ∧
    rag_wins [c6FailRec, c6RecB, c6RecTie] = 0 ∧
    kg_wins [c6FailRec, c6RecB, c6RecTie] = 1 ∧
    ties [c6FailRec, c6RecB, c6RecTie] = 1 ∧
    rag_wins [c6RecA, c6RecB, c6RecTie] = 1 ∧
    kg_wins [c6RecA, c6RecB, c6RecTie] = 1 ∧
    ties [c6RecA, c6RecB, c6RecTie] = 1 ∧
    winPct 1 3 = 100 / 3 := by
  refine ⟨rfl, rfl, by decide, by decide, by decide, by decide, by decide, by decide, ?_⟩
  norm_num [winPct]

/-! ## C7: means are taken over the numerically scored subset only -/

/-- C7: a record whose judgment is absent, an error dict or a raw-text
dict contributes nothing to either accuracy sample, leaving both means
unchanged (excluded rather than counted as zero); a parsed judgment
carrying a numeric accuracy score contributes exactly that score. -/
theorem c7_mean_excludes_degenerate :
    (∀ (r : ComparisonRecord) (rs : List ComparisonRecord),
      (r.judgment = none ∨ (∃ s, r.judgment = some (.error s)) ∨
        (∃ s, r.judgment = some (.rawText s))) →
      ragAccuracyScores (r :: rs) = ragAccuracyScores rs ∧
      kgAccuracyScores (r :: rs) = kgAccuracyScores rs ∧
      mean_rag_accuracy (r :: rs) = mean_rag_accuracy rs ∧
      mean_kg_accuracy (r :: rs) = mean_kg_accuracy rs) ∧
    (∀ (r : ComparisonRecord) (rs : List ComparisonRecord) (d : JudgmentDict) (a : Int),
      r.judgment = some (.parsed d) → d.accuracy_score_a = some a →
      ragAccuracyScores (r :: rs) = a :: ragAccuracyScores rs) := by
  constructor
  · intro r rs h
    have hA : ragAccuracyScores (r :: rs) = ragAccuracyScores rs := by
      rcases h with h | ⟨s, h⟩ | ⟨s, h⟩ <;>
        simp [ragAccuracyScores, List.filterMap_cons, h, judgmentTruthy, judgmentAccuracyA]
    have hB : kgAccuracyScores (r :: rs) = kgAccuracyScores rs := by
      rcases h with h | ⟨s, h⟩ | ⟨s, h⟩ <;>
        simp [kgAccuracyScores, List.filterMap_cons, h, judgmentTruthy, judgmentAccuracyB]
    exact ⟨hA, hB, by rw [mean_rag_accuracy, hA, mean_rag_accuracy],
      by rw [mean_kg_accuracy, hB, mean_kg_accuracy]⟩
  · intro r rs d a h1 h2
    have htruthy : judgmentTruthy (.parsed d) = true := by
      simp only [judgmentTruthy, ne_eq, decide_eq_true_eq]
      intro he
      rw [he] at h2
      cases h2
    simp [ragAccuracyScores, List.filterMap_cons, h1, htruthy, judgmentAccuracyA, h2]

/-- C7 witness: a KG-failure record (null judgment) leaves sample and
mean unchanged; a parsed judgment with accuracy 9 contributes 9. -/
def c7DegRec : ComparisonRecord :=
  ⟨pystr "q1", some (pystr "RAG"), none, some (pystr "Knowledge Graph query failed"), none,
   ⟨[], [], []⟩, ⟨false, none, [], none, none, none, none, none⟩⟩

def c7Dict : JudgmentDict :=
  ⟨some (pystr "A"), none, some 9, some 7, none, none, none, none, none, none, none, none,
   none, none⟩

def c7ParsedRec : ComparisonRecord :=
  ⟨pystr "q2", some (pystr "A"), some (pystr "high"), none, some (.parsed c7Dict),
   ⟨[], [], []⟩, ⟨true, none, [], none, none, none, none, none⟩⟩

theorem c7_mean_excludes_degenerate_witness :
    ragAccuracyScores [c7DegRec, c7ParsedRec] = ragAccuracyScores [c7ParsedRec] ∧
    mean_rag_accuracy [c7DegRec, c7ParsedRec] = mean_rag_accuracy [c7ParsedRec] ∧
    ragAccuracyScores [c7ParsedRec] = 9 :: ragAccuracyScores [] :=
  ⟨(c7_mean_excludes_degenerate.1 c7DegRec [c7ParsedRec] (Or.inl rfl)).1,
   (c7_mean_excludes_degenerate.1 c7DegRec [c7ParsedRec] (Or.inl rfl)).2.2.1,
   c7_mean_excludes_degenerate.2 c7ParsedRec [] c7Dict 9 rfl rfl⟩
